import Mathlib

/-!
Verification development for the onedock single-host container orchestrator.

Container names, labels and other Go strings are embedded as `List Char`.
Go `fmt.Sprintf("%d", n)` / `strconv.Itoa` are embedded as `natChars`,
`strconv.Atoi` (on the digit strings produced by the orchestrator itself)
as `atoiNat?`, and the decimal parse of a regex `\d+` capture as `parseNat`.
-/

namespace OneDock

/-- Decimal value of a big-endian digit-character list; model of the
`strconv.Atoi` call applied to a `\d+` regex capture (always all digits). -/
def parseNat (s : List Char) : Nat :=
  s.foldl (fun a c => 10 * a + (c.toNat - 48)) 0

/-- Little-endian decimal digit characters of `n`, with structural fuel so
that the definition evaluates by kernel reduction. -/
def natCharsAux : Nat → Nat → List Char
  | 0, _ => []
  | fuel + 1, n =>
      if n = 0 then [] else Nat.digitChar (n % 10) :: natCharsAux fuel (n / 10)

/-- Canonical decimal representation of a natural number as characters;
model of Go `fmt.Sprintf("%d", n)` / `strconv.Itoa(n)` for non-negative `n`. -/
def natChars (n : Nat) : List Char :=
  if n = 0 then ['0'] else (natCharsAux n n).reverse

theorem natCharsAux_eq_digits :
    ∀ fuel n, n ≤ fuel → natCharsAux fuel n = (Nat.digits 10 n).map Nat.digitChar := by
  intro fuel
  induction fuel with
  | zero =>
      intro n hn
      interval_cases n
      simp [natCharsAux]
  | succ f ih =>
      intro n hn
      by_cases h0 : n = 0
      · subst h0; simp [natCharsAux]
      · rw [natCharsAux, if_neg h0,
          Nat.digits_def' (b := 10) (by norm_num) (Nat.pos_of_ne_zero h0),
          List.map_cons, ih (n / 10) (by omega)]

theorem natChars_eq_digits (n : Nat) :
    natChars n = if n = 0 then ['0']
      else ((Nat.digits 10 n).reverse.map Nat.digitChar) := by
  unfold natChars
  split
  · rfl
  · rw [natCharsAux_eq_digits n n (Nat.le_refl n), List.map_reverse]

/-- Model of `strconv.Atoi` restricted to unsigned inputs: succeeds exactly on
non-empty all-digit strings.  (Signed inputs never occur in the orchestrator's
own names and labels, which are produced by `natChars`.) -/
def atoiNat? (s : List Char) : Option Nat :=
  if s ≠ [] ∧ s.all Char.isDigit then some (parseNat s) else none

/-- Big-endian Horner fold on digit values. -/
def parseDigits (l : List Nat) : Nat :=
  l.foldl (fun a d => 10 * a + d) 0

theorem parseDigits_append_singleton (l : List Nat) (d : Nat) :
    parseDigits (l ++ [d]) = 10 * parseDigits l + d := by
  simp [parseDigits, List.foldl_append]

theorem parseDigits_reverse_eq_ofDigits (l : List Nat) :
    parseDigits l.reverse = Nat.ofDigits 10 l := by
  induction l with
  | nil => simp [parseDigits]
  | cons d t ih =>
      simp only [List.reverse_cons, parseDigits_append_singleton, ih, Nat.ofDigits_cons]
      ring

theorem digitChar_isDigit {d : Nat} (h : d < 10) : (Nat.digitChar d).isDigit = true := by
  interval_cases d <;> decide

theorem digitChar_toNat {d : Nat} (h : d < 10) : (Nat.digitChar d).toNat - 48 = d := by
  interval_cases d <;> decide

theorem digitChar_ne_dash {d : Nat} (h : d < 10) : Nat.digitChar d ≠ '-' := by
  interval_cases d <;> decide

theorem natChars_ne_nil (n : Nat) : natChars n ≠ [] := by
  rw [natChars_eq_digits]
  split
  · simp
  · next h =>
    simp only [ne_eq, List.map_eq_nil, List.reverse_eq_nil_iff]
    exact Nat.digits_ne_nil_iff_ne_zero.mpr h

theorem natChars_all_digit (n : Nat) : (natChars n).all Char.isDigit = true := by
  rw [natChars_eq_digits]
  split
  · decide
  · simp only [List.all_eq_true, List.mem_map, List.mem_reverse]
    rintro c ⟨d, hd, rfl⟩
    exact digitChar_isDigit (Nat.digits_lt_base (by norm_num) hd)

theorem natChars_not_mem_dash (n : Nat) : '-' ∉ natChars n := by
  intro hmem
  have := List.all_eq_true.mp (natChars_all_digit n) _ hmem
  simp [Char.isDigit] at this

theorem foldl_map_digitChar (l : List Nat) (h : ∀ d ∈ l, d < 10) :
    ∀ a : Nat, List.foldl (fun a c => 10 * a + (Char.toNat c - 48)) a (l.map Nat.digitChar)
      = List.foldl (fun a d => 10 * a + d) a l := by
  induction l with
  | nil => intro a; rfl
  | cons d t ih =>
      intro a
      simp only [List.map_cons, List.foldl_cons]
      rw [digitChar_toNat (h d (by simp))]
      exact ih (fun x hx => h x (by simp [hx])) _

theorem parseNat_eq_parseDigits (l : List Nat) (h : ∀ d ∈ l, d < 10) :
    parseNat (l.map Nat.digitChar) = parseDigits l :=
  foldl_map_digitChar l h 0

theorem parseNat_natChars (n : Nat) : parseNat (natChars n) = n := by
  rw [natChars_eq_digits]
  split
  · next h => subst h; decide
  · next h =>
    rw [parseNat_eq_parseDigits]
    · rw [parseDigits_reverse_eq_ofDigits, Nat.ofDigits_digits]
    · intro d hd
      exact Nat.digits_lt_base (by norm_num) (List.mem_reverse.mp hd)

/-! ## NameCodec: `generateContainerName` / `ParseContainerName` -/

/-- Decoded container-name information (`ContainerNameInfo` in the source). -/
structure ContainerNameInfo where
  serviceName : List Char
  publicPort : Nat
  containerPort : Nat
  replicaIndex : Nat
  deriving DecidableEq, Repr

/-- The tail of an encoded name after the service segment:
the characters `-p{publicPort}-c{containerPort}-{replicaIndex}`. -/
def anchorChars (pub dock idx : Nat) : List Char :=
  '-' :: 'p' :: (natChars pub ++ '-' :: 'c' :: (natChars dock ++ '-' :: natChars idx))

/-- `generateContainerName`: `fmt.Sprintf("%s-%s-p%d-c%d-%d", prefix, serviceName,
publicPort, containerPort, replicaIndex)`. -/
def generateContainerName (pre serviceName : List Char)
    (publicPort containerPort replicaIndex : Nat) : List Char :=
  pre ++ '-' :: (serviceName ++ anchorChars publicPort containerPort replicaIndex)

/-- Full match of the regex fragment `-p(\d+)-c(\d+)-(\d+)` against an entire
suffix, returning the three captured numbers.  `\d+` is greedy, which for this
pattern coincides with `takeWhile isDigit` (a shorter digit run would leave a
digit where `-` is required). -/
def tailAnchor (s : List Char) : Option (Nat × Nat × Nat) :=
  match s with
  | '-' :: 'p' :: r1 =>
    (match r1.dropWhile Char.isDigit with
     | '-' :: 'c' :: r2 =>
       (match r2.dropWhile Char.isDigit with
        | '-' :: ds3 =>
          if r1.takeWhile Char.isDigit ≠ [] ∧ r2.takeWhile Char.isDigit ≠ [] ∧
              ds3 ≠ [] ∧ ds3.all Char.isDigit then
            some (parseNat (r1.takeWhile Char.isDigit),
                  parseNat (r2.takeWhile Char.isDigit), parseNat ds3)
          else none
        | _ => none)
     | _ => none)
  | _ => none

/-- `ParseContainerName`: reject an empty configured name prefix, reject names
not starting with `{prefix}-`, then match `^(.+)-p(\d+)-c(\d+)-(\d+)$` on the
rest.  The greedy `(.+)` takes the longest prefix whose remainder still matches
the anchor, embedded here with `Nat.findGreatest`. -/
def parseContainerName (pre name : List Char) : Option ContainerNameInfo :=
  if pre = [] then none
  else if (pre ++ ['-']).isPrefixOf name then
    let remaining := name.drop (pre.length + 1)
    let k := Nat.findGreatest
      (fun k => 0 < k ∧ (tailAnchor (remaining.drop k)).isSome = true) remaining.length
    if 0 < k then
      match tailAnchor (remaining.drop k) with
      | some (pub, dock, idx) => some ⟨remaining.take k, pub, dock, idx⟩
      | none => none
    else none
  else none

theorem takeWhile_digits_append {l : List Char} (hl : l.all Char.isDigit = true)
    {c : Char} (hc : c.isDigit = false) (r : List Char) :
    (l ++ c :: r).takeWhile Char.isDigit = l ∧
      (l ++ c :: r).dropWhile Char.isDigit = c :: r := by
  induction l with
  | nil => simp [List.takeWhile_cons, List.dropWhile_cons, hc]
  | cons a t ih =>
      simp only [List.all_cons, Bool.and_eq_true] at hl
      simp [List.takeWhile_cons, List.dropWhile_cons, hl.1, ih hl.2]

theorem tailAnchor_anchorChars (P D I : Nat) :
    tailAnchor (anchorChars P D I) = some (P, D, I) := by
  have h1 := takeWhile_digits_append (natChars_all_digit P) (c := '-') (by decide)
    ('c' :: (natChars D ++ '-' :: natChars I))
  have h2 := takeWhile_digits_append (natChars_all_digit D) (c := '-') (by decide)
    (natChars I)
  simp only [anchorChars, tailAnchor, h1.1, h1.2, h2.1, h2.2]
  simp [natChars_ne_nil, natChars_all_digit, parseNat_natChars]

/-- Digit runs contain no dash. -/
theorem count_dash_eq_zero {l : List Char} (hl : l.all Char.isDigit = true) :
    l.count '-' = 0 := by
  rw [List.count_eq_zero]
  intro hmem
  have := List.all_eq_true.mp hl _ hmem
  simp [Char.isDigit] at this

theorem count_dash_takeWhile (l : List Char) :
    (l.takeWhile Char.isDigit).count '-' = 0 := by
  rw [List.count_eq_zero]
  intro hmem
  have := List.mem_takeWhile_imp hmem
  simp [Char.isDigit] at this

/-- Any string fully matching the tail anchor contains exactly three dashes. -/
theorem tailAnchor_count_dash {s : List Char} {x : Nat × Nat × Nat}
    (h : tailAnchor s = some x) : s.count '-' = 3 := by
  unfold tailAnchor at h
  split at h
  case h_2 => exact absurd h (by simp)
  case h_1 r1 =>
    split at h
    case h_2 => exact absurd h (by simp)
    case h_1 r2 heq1 =>
      split at h
      case h_2 => exact absurd h (by simp)
      case h_1 ds3 heq2 =>
        split at h
        case isFalse => exact absurd h (by simp)
        case isTrue hcond =>
          have hr1 : r1.takeWhile Char.isDigit ++ r1.dropWhile Char.isDigit = r1 :=
            List.takeWhile_append_dropWhile ..
          have hr2 : r2.takeWhile Char.isDigit ++ r2.dropWhile Char.isDigit = r2 :=
            List.takeWhile_append_dropWhile ..
          have c1 : r2.count '-' = 1 := by
            rw [← hr2, heq2, List.count_append, count_dash_takeWhile]
            rw [List.count_cons, count_dash_eq_zero hcond.2.2.2]
            decide
          have c2 : r1.count '-' = 2 := by
            rw [← hr1, heq1, List.count_append, count_dash_takeWhile]
            simp [List.count_cons, c1]
          simp [List.count_cons, c2]

/-- The anchor of a canonical encoding has exactly three dashes, so no proper
suffix of it can itself match the anchor. -/
theorem tailAnchor_drop_anchorChars (P D I : Nat) {j : Nat} (hj : 0 < j) :
    tailAnchor ((anchorChars P D I).drop j) = none := by
  by_contra hne
  obtain ⟨x, hx⟩ := Option.ne_none_iff_exists'.mp hne
  have h3 := tailAnchor_count_dash hx
  have htail : ('p' :: (natChars P ++ '-' :: 'c' ::
      (natChars D ++ '-' :: natChars I))).count '-' = 2 := by
    simp [List.count_cons, List.count_append, count_dash_eq_zero (natChars_all_digit P),
      count_dash_eq_zero (natChars_all_digit D), count_dash_eq_zero (natChars_all_digit I)]
  obtain ⟨j', rfl⟩ : ∃ j', j = j' + 1 := ⟨j - 1, by omega⟩
  have hdrop : (anchorChars P D I).drop (j' + 1)
      = ('p' :: (natChars P ++ '-' :: 'c' :: (natChars D ++ '-' :: natChars I))).drop j' := by
    simp [anchorChars, List.drop_succ_cons]
  rw [hdrop] at h3
  have hle := (List.drop_sublist j'
    ('p' :: (natChars P ++ '-' :: 'c' :: (natChars D ++ '-' :: natChars I)))).count_le '-'
  rw [h3, htail] at hle
  omega

/-- Decoding recovers the encoded quadruple for any non-empty service segment
and any non-empty configured name prefix. -/
theorem parseContainerName_generateContainerName (pre svc : List Char)
    (pub dock idx : Nat) (hpre : pre ≠ []) (hsvc : svc ≠ []) :
    parseContainerName pre (generateContainerName pre svc pub dock idx)
      = some ⟨svc, pub, dock, idx⟩ := by
  have hname : generateContainerName pre svc pub dock idx
      = (pre ++ ['-']) ++ (svc ++ anchorChars pub dock idx) := by
    simp [generateContainerName]
  have hlen : (pre ++ ['-']).length = pre.length + 1 := by simp
  have hdrop : ((pre ++ ['-']) ++ (svc ++ anchorChars pub dock idx)).drop (pre.length + 1)
      = svc ++ anchorChars pub dock idx := List.drop_left' hlen
  have hanchor : (svc ++ anchorChars pub dock idx).drop svc.length
      = anchorChars pub dock idx := List.drop_left ..
  have hP : Nat.findGreatest
      (fun k => 0 < k ∧ (tailAnchor ((svc ++ anchorChars pub dock idx).drop k)).isSome = true)
      (svc ++ anchorChars pub dock idx).length = svc.length := by
    rw [Nat.findGreatest_eq_iff]
    refine ⟨by simp, fun _ => ⟨List.length_pos.mpr hsvc, ?_⟩, ?_⟩
    · rw [hanchor, tailAnchor_anchorChars]; rfl
    · intro n hlt _hle hPn
      obtain ⟨i, rfl⟩ : ∃ i, n = svc.length + i := ⟨n - svc.length, by omega⟩
      rw [List.drop_append] at hPn
      have hi : 0 < i := by omega
      rw [tailAnchor_drop_anchorChars pub dock idx hi] at hPn
      simp at hPn
  have hpfx : ((pre ++ ['-']).isPrefixOf
      ((pre ++ ['-']) ++ (svc ++ anchorChars pub dock idx))) = true :=
    List.isPrefixOf_iff_prefix.mpr (List.prefix_append _ _)
  rw [hname]
  unfold parseContainerName
  rw [if_neg hpre]
  simp only [hpfx, if_true, hdrop, hlen]
  rw [hP, if_pos (List.length_pos.mpr hsvc), hanchor, tailAnchor_anchorChars,
    List.take_left]

/-- A character allowed after the first position of a service name:
`[A-Za-z0-9._-]`. -/
def isNameChar (c : Char) : Bool :=
  c.isAlphanum || c = '.' || c = '_' || c = '-'

/-- Valid service name per the specification: `[A-Za-z0-9][A-Za-z0-9._-]*`. -/
def validServiceName : List Char → Bool
  | [] => false
  | c :: cs => c.isAlphanum && cs.all isNameChar

/-- Whether some suffix of `s` fully matches the tail anchor
`-p(\d+)-c(\d+)-(\d+)`. -/
def endsInTailAnchor (s : List Char) : Bool :=
  (List.range (s.length + 1)).any (fun j => (tailAnchor (s.drop j)).isSome)

/-- C1: NameCodec round-trip.  For every valid service name (matching
`[A-Za-z0-9][A-Za-z0-9._-]*` and not itself ending in the tail anchor), every
`publicPort ≤ 65535`, `dockerPort ≤ 65535` and `replicaIndex ≥ 0` (a `Nat`),
decoding the encoded container name returns exactly the original quadruple:
`ParseContainerName(generateContainerName(service, pub, dock, idx))
 = (service, pub, dock, idx)`. -/
theorem C1_nameCodec_roundtrip (pre svc : List Char) (pub dock idx : Nat)
    (hpre : pre ≠ [])
    (hsvc : validServiceName svc = true)
    (hanchor : endsInTailAnchor svc = false)
    (hpub : pub ≤ 65535) (hdock : dock ≤ 65535) :
    parseContainerName pre (generateContainerName pre svc pub dock idx)
      = some ⟨svc, pub, dock, idx⟩ :=
  parseContainerName_generateContainerName pre svc pub dock idx hpre
    (by cases svc <;> simp_all [validServiceName])

/-- C1 witness: the round-trip at the concrete container name
`onedock-nginx-web-p9203-c30000-0`. -/
theorem C1_nameCodec_roundtrip_witness :
    ("onedock".toList ≠ [] ∧ validServiceName "nginx-web".toList = true ∧
      endsInTailAnchor "nginx-web".toList = false ∧ 9203 ≤ 65535 ∧ 30000 ≤ 65535) ∧
    parseContainerName "onedock".toList
      (generateContainerName "onedock".toList "nginx-web".toList 9203 30000 0)
      = some ⟨"nginx-web".toList, 9203, 30000, 0⟩ :=
  ⟨⟨by decide, by decide, by decide, by decide, by decide⟩,
   C1_nameCodec_roundtrip _ _ _ _ _ (by decide) (by decide) (by decide)
     (by decide) (by decide)⟩

/-! ## Container data model

`PortMapping`, `ContainerInfo`, `VolumeMount` and `Service` mirror the
`dockerclient` structs; their fields are reconstructed from every use site in
the sources.  Go port integers are embedded as `Nat` (the orchestrator only
produces non-negative ports), strings as `List Char`, and Go maps as
association lists. -/

structure PortMapping where
  hostPort : List Char
  containerPort : List Char
  protocol : List Char
  deriving DecidableEq, Repr

structure ContainerInfo where
  id : List Char
  name : List Char
  image : List Char
  status : List Char
  state : List Char
  ports : List PortMapping
  labels : List (List Char × List Char)
  createdAt : List Char
  deriving DecidableEq, Repr

structure VolumeMount where
  source : List Char
  destination : List Char
  readOnly : Bool
  deriving DecidableEq, Repr

structure Service where
  name : List Char
  image : List Char
  tag : List Char
  publicPort : Nat
  internalPort : Nat
  dockerPort : Nat
  replicas : Nat
  environment : List (List Char × List Char)
  envFile : List Char
  volumes : List VolumeMount
  entrypoint : List (List Char)
  command : List (List Char)
  workingDir : List Char
  deriving DecidableEq, Repr

/-- Association-list lookup (embedding of Go map indexing). -/
def alookup {α : Type} (k : List Char) : List (List Char × α) → Option α
  | [] => none
  | (k2, v) :: rest => if k = k2 then some v else alookup k rest

/-- Go map indexing `labels[key]`: a missing key yields the empty string. -/
def labelGet (labels : List (List Char × List Char)) (k : List Char) : List Char :=
  (alookup k labels).getD []

/-- `ExtractServiceFromContainer`: rebuild a `Service` from a container's name,
labels and first declared port mapping; failures (unparseable name, missing
labels, bad `public_port` label) are embedded as `none`. -/
def extractServiceFromContainer (pre : List Char) (c : ContainerInfo) :
    Option Service :=
  match parseContainerName pre c.name with
  | none => none
  | some nameInfo =>
    let serviceName := labelGet c.labels (pre ++ ".service".toList)
    let image := labelGet c.labels (pre ++ ".image".toList)
    let tag := labelGet c.labels (pre ++ ".tag".toList)
    let publicPortStr := labelGet c.labels (pre ++ ".public_port".toList)
    if serviceName = [] ∨ image = [] ∨ tag = [] then none
    else
      match atoiNat? publicPortStr with
      | none => none
      | some publicPort =>
        let internalPort := match c.ports with
          | [] => 80
          | m :: _ => (atoiNat? m.containerPort).getD 80
        some { name := serviceName, image := image, tag := tag,
               publicPort := publicPort, internalPort := internalPort,
               dockerPort := nameInfo.containerPort, replicas := 1,
               environment := [], envFile := [], volumes := [],
               entrypoint := [], command := [], workingDir := [] }

theorem atoiNat?_natChars (n : Nat) : atoiNat? (natChars n) = some n := by
  unfold atoiNat?
  rw [if_pos ⟨natChars_ne_nil n, natChars_all_digit n⟩, parseNat_natChars]

/-! ## Port allocator (`findAvailablePortForService` / `isPortOccupied`)

The TCP listen probe `isPortOccupied` queries the operating system; it is
embedded as an oracle `occupied : Nat → Bool` fixed for the duration of one
allocation.  The unbounded Go scan loop is embedded with explicit fuel: the
Go function returns `p` exactly when the embedding returns `some p` for a
large enough fuel. -/

/-- Docker ports used by the managed containers, decoded from their names
(the source inspects every parseable container, whatever its state). -/
def usedPortsOf (pre : List Char) (cs : List ContainerInfo) : List Nat :=
  cs.filterMap (fun c => (parseContainerName pre c.name).map (·.containerPort))

/-- The scan loop of `findAvailablePortForService`. -/
def findPortFrom (used : List Nat) (occupied : Nat → Bool) :
    Nat → Nat → Option Nat
  | 0, _ => none
  | fuel + 1, p =>
      if p ∉ used ∧ occupied p = false then some p
      else findPortFrom used occupied fuel (p + 1)

/-- `findAvailablePortForService(containers, serviceName)`: scan from the
configured start port, skipping ports used by any managed container and ports
the listen probe reports occupied.  (`serviceName` is also unused in the
source.) -/
def findAvailablePortForService (pre : List Char) (internalPortStart : Nat)
    (occupied : Nat → Bool) (fuel : Nat) (cs : List ContainerInfo)
    (serviceName : List Char) : Option Nat :=
  findPortFrom (usedPortsOf pre cs) occupied fuel internalPortStart

theorem findPortFrom_spec (used : List Nat) (occupied : Nat → Bool) :
    ∀ fuel start p, findPortFrom used occupied fuel start = some p →
      start ≤ p ∧ p ∉ used ∧ occupied p = false ∧
        ∀ q, start ≤ q → q < p → (q ∈ used ∨ occupied q = true) := by
  intro fuel
  induction fuel with
  | zero => intro start p h; simp [findPortFrom] at h
  | succ n ih =>
      intro start p h
      rw [findPortFrom] at h
      split at h
      · next hc =>
          cases h
          exact ⟨Nat.le_refl _, hc.1, hc.2, fun q h1 h2 => absurd h2 (by omega)⟩
      · next hc =>
          obtain ⟨h1, h2, h3, h4⟩ := ih (start + 1) p h
          refine ⟨by omega, h2, h3, fun q hq1 hq2 => ?_⟩
          by_cases heq : q = start
          · rw [heq]
            by_cases hmem : start ∈ used
            · exact Or.inl hmem
            · refine Or.inr ?_
              by_contra hocc
              exact hc ⟨hmem, by simpa using hocc⟩
          · exact h4 q (by omega) hq2

/-! ## `GetNextReplicaIndex` -/

/-- Replica indices currently used by the named service, decoded from the
managed container list (any container state). -/
def usedIndexesOf (pre : List Char) (cs : List ContainerInfo)
    (serviceName : List Char) : List Nat :=
  cs.filterMap (fun c =>
    match parseContainerName pre c.name with
    | some info =>
        if info.serviceName = serviceName then some info.replicaIndex else none
    | none => none)

theorem le_foldr_max (l : List Nat) : ∀ x ∈ l, x ≤ l.foldr max 0 := by
  induction l with
  | nil => simp
  | cons a t ih =>
      intro x hx
      rcases List.mem_cons.mp hx with rfl | hx
      · simp [List.foldr_cons, Nat.le_max_left]
      · exact Nat.le_trans (ih x hx) (by simp [List.foldr_cons, Nat.le_max_right])

theorem exists_unused (l : List Nat) : ∃ i, i ∉ l :=
  ⟨l.foldr max 0 + 1, fun hmem => by have := le_foldr_max l _ hmem; omega⟩

/-- `GetNextReplicaIndex`: scan `i = 0, 1, 2, …` and return the first index not
used by the service (the Go loop; `Nat.find` is that first-hit search). -/
def getNextReplicaIndex (pre : List Char) (cs : List ContainerInfo)
    (serviceName : List Char) : Nat :=
  Nat.find (exists_unused (usedIndexesOf pre cs serviceName))

/-- C6: Index minimality.  For every service name and current set of replica
indices decoded from the managed container list, `GetNextReplicaIndex` returns
the minimum non-negative integer absent from that service's index set. -/
theorem C6_nextReplicaIndex_minimal (pre : List Char) (cs : List ContainerInfo)
    (serviceName : List Char) :
    getNextReplicaIndex pre cs serviceName ∉ usedIndexesOf pre cs serviceName ∧
      ∀ j < getNextReplicaIndex pre cs serviceName,
        j ∈ usedIndexesOf pre cs serviceName := by
  constructor
  · exact Nat.find_spec (exists_unused (usedIndexesOf pre cs serviceName))
  · intro j hj
    have := Nat.find_min (exists_unused (usedIndexesOf pre cs serviceName)) hj
    simpa using this

/-! ### Concrete fixtures used by witnesses and counterexamples -/

/-- The default configured container-name prefix `onedock`. -/
def odPre : List Char := "onedock".toList

/-- Running replica 0 of service `web` on docker port 30000. -/
def webC0 : ContainerInfo :=
  { id := "a0".toList, name := generateContainerName odPre "web".toList 9203 30000 0,
    image := "nginx:alpine".toList, status := [], state := "running".toList,
    ports := [], labels := [], createdAt := [] }

/-- Running replica 1 of service `web` on docker port 30001. -/
def webC1 : ContainerInfo :=
  { id := "a1".toList, name := generateContainerName odPre "web".toList 9203 30001 1,
    image := "nginx:alpine".toList, status := [], state := "running".toList,
    ports := [], labels := [], createdAt := [] }

/-- Stopped replica 3 of service `web` on docker port 30003. -/
def webC3 : ContainerInfo :=
  { id := "a3".toList, name := generateContainerName odPre "web".toList 9203 30003 3,
    image := "nginx:alpine".toList, status := [], state := "exited".toList,
    ports := [], labels := [], createdAt := [] }

/-- Stopped replica 0 of service `web` on docker port 30000. -/
def webStopped : ContainerInfo :=
  { id := "s0".toList, name := generateContainerName odPre "web".toList 9203 30000 0,
    image := "nginx:alpine".toList, status := [], state := "exited".toList,
    ports := [], labels := [], createdAt := [] }

/-- Fully labelled running replica 0 of `web`, with an empty port-mapping
list, as `ExtractServiceFromContainer` receives it. -/
def labelledC : ContainerInfo :=
  { id := "cid".toList, name := generateContainerName odPre "web".toList 9203 30000 0,
    image := "nginx:alpine".toList, status := [], state := "running".toList,
    ports := [],
    labels := [(odPre ++ ".service".toList, "web".toList),
               (odPre ++ ".image".toList, "nginx".toList),
               (odPre ++ ".tag".toList, "alpine".toList),
               (odPre ++ ".public_port".toList, natChars 9203)],
    createdAt := [] }

/-- C6 witness: with replicas 0, 1 and 3 of `web` present, the returned index
is minimal and unused (it evaluates to 2). -/
theorem C6_nextReplicaIndex_minimal_witness :
    getNextReplicaIndex odPre [webC0, webC1, webC3] "web".toList
      ∉ usedIndexesOf odPre [webC0, webC1, webC3] "web".toList ∧
    ∀ j < getNextReplicaIndex odPre [webC0, webC1, webC3] "web".toList,
      j ∈ usedIndexesOf odPre [webC0, webC1, webC3] "web".toList :=
  C6_nextReplicaIndex_minimal _ _ _

/-- C4 (amended): for a fixed managed container list, whenever the allocator
scan returns a port `p`, that `p` is the first integer at or above the start
port that is neither a docker port of ANY managed container in the list
(running or stopped) nor reported occupied by the TCP listen probe; in
particular `p` is never a docker port already present in the managed set. -/
theorem C4_allocator_first_free (pre : List Char) (startPort : Nat)
    (occupied : Nat → Bool) (fuel : Nat) (cs : List ContainerInfo)
    (serviceName : List Char) (p : Nat)
    (h : findAvailablePortForService pre startPort occupied fuel cs serviceName
      = some p) :
    startPort ≤ p ∧ p ∉ usedPortsOf pre cs ∧ occupied p = false ∧
      ∀ q, startPort ≤ q → q < p →
        (q ∈ usedPortsOf pre cs ∨ occupied q = true) :=
  findPortFrom_spec _ _ fuel startPort p h

/-- C4 witness: with one running replica on port 30000 the allocator returns
30001, which is minimal, fresh and unoccupied. -/
theorem C4_allocator_first_free_witness :
    (findAvailablePortForService odPre 30000 (fun _ => false) 2 [webC0]
        "web".toList = some 30001) ∧
    (30000 ≤ 30001 ∧ 30001 ∉ usedPortsOf odPre [webC0] ∧
      (fun (_ : Nat) => false) 30001 = false ∧
      ∀ q, 30000 ≤ q → q < 30001 →
        (q ∈ usedPortsOf odPre [webC0] ∨ (fun (_ : Nat) => false) q = true)) :=
  ⟨by decide, C4_allocator_first_free odPre 30000 (fun _ => false) 2 [webC0]
    "web".toList 30001 (by decide)⟩

/-- Modelled from the claim's wording for comparison: docker ports of RUNNING
managed containers only.  The source's allocator considers every managed
container regardless of state. -/
def runningUsedPortsOf (pre : List Char) (cs : List ContainerInfo) : List Nat :=
  (cs.filter (fun c => c.state = "running".toList)).filterMap
    (fun c => (parseContainerName pre c.name).map (·.containerPort))

/-- The claim's allocator: first port at or above the start that no RUNNING
managed container uses and that passes the listen probe. -/
def specFirstFreePort (pre : List Char) (startPort : Nat)
    (occupied : Nat → Bool) (fuel : Nat) (cs : List ContainerInfo) : Option Nat :=
  findPortFrom (runningUsedPortsOf pre cs) occupied fuel startPort

/-- C4 counterexample: with a single STOPPED managed container on port 30000
and a fully free operating system, the source allocator returns 30001 while
the claim's rule ("no running managed container uses p") selects 30000. -/
theorem C4_allocator_running_counterexample :
    findAvailablePortForService odPre 30000 (fun _ => false) 2 [webStopped]
        "web".toList
      ≠ specFirstFreePort odPre 30000 (fun _ => false) 2 [webStopped] := by
  decide

/-- C10: a managed container carrying the required service/image/tag labels
and a parseable `public_port` label is successfully extracted; with an empty
port-mapping list the reported `internalPort` is the hard-coded default 80,
and with a non-empty list it is the first mapping's container port. -/
theorem C10_extract_internal_port (pre : List Char) (c : ContainerInfo)
    (hname : (parseContainerName pre c.name).isSome = true)
    (hsvc : labelGet c.labels (pre ++ ".service".toList) ≠ [])
    (himg : labelGet c.labels (pre ++ ".image".toList) ≠ [])
    (htag : labelGet c.labels (pre ++ ".tag".toList) ≠ [])
    (hpub : (atoiNat? (labelGet c.labels (pre ++ ".public_port".toList))).isSome
      = true) :
    ∃ s, extractServiceFromContainer pre c = some s ∧
      (c.ports = [] → s.internalPort = 80) ∧
      (∀ m ms n, c.ports = m :: ms → m.containerPort = natChars n →
        s.internalPort = n) := by
  obtain ⟨info, hinfo⟩ := Option.isSome_iff_exists.mp hname
  obtain ⟨pub, hpubv⟩ := Option.isSome_iff_exists.mp hpub
  unfold extractServiceFromContainer
  rw [hinfo]
  simp only
  rw [if_neg (fun hor => by
    rcases hor with h | h | h
    · exact hsvc h
    · exact himg h
    · exact htag h), hpubv]
  refine ⟨_, rfl, fun hp => ?_, fun m ms n hm hcp => ?_⟩
  · simp [hp]
  · simp [hm, hcp, atoiNat?_natChars]

/-- C10 witness: the fully labelled container with an empty port list is
extracted with `internalPort = 80`. -/
theorem C10_extract_internal_port_witness :
    ((parseContainerName odPre labelledC.name).isSome = true ∧
      labelGet labelledC.labels (odPre ++ ".service".toList) ≠ [] ∧
      labelGet labelledC.labels (odPre ++ ".image".toList) ≠ [] ∧
      labelGet labelledC.labels (odPre ++ ".tag".toList) ≠ [] ∧
      (atoiNat? (labelGet labelledC.labels
        (odPre ++ ".public_port".toList))).isSome = true) ∧
    ∃ s, extractServiceFromContainer odPre labelledC = some s ∧
      (labelledC.ports = [] → s.internalPort = 80) ∧
      (∀ m ms n, labelledC.ports = m :: ms → m.containerPort = natChars n →
        s.internalPort = n) :=
  ⟨⟨by decide, by decide, by decide, by decide, by decide⟩,
   C10_extract_internal_port _ _ (by decide) (by decide) (by decide) (by decide)
     (by decide)⟩

/-! ## Scaling (`ScaleService`, `scaleUp`, `scaleDown`, `removeReplica`)

Runtime I/O failures (image pulls, container create/start) are external;
the embedding models the success path of each runtime call — the per-replica
`continue`-on-error branches only skip work that the claims do not touch. -/

/-- One replica removal: `StopContainer` with the 30-second graceful timeout,
then `RemoveContainer` with `Force: true`. -/
structure RemoveEvent where
  containerId : List Char
  stopGraceSeconds : Nat
  forceRemove : Bool
  deriving DecidableEq, Repr

/-- `removeReplica`: stop with 30s grace, then force-remove. -/
def removeReplica (c : ContainerInfo) : RemoveEvent :=
  { containerId := c.id, stopGraceSeconds := 30, forceRemove := true }

/-- `scaleDown`: walk the service's container list from its LAST element
towards the front, removing until `current - target` containers are gone.
The list is in runtime-reported order; the source never sorts it by replica
index. -/
def scaleDown (serviceContainers : List ContainerInfo) (targetReplicas : Nat) :
    List RemoveEvent :=
  (serviceContainers.reverse.take (serviceContainers.length - targetReplicas)).map
    removeReplica

/-- The filter loop of `ScaleService`: containers whose parsed service name
matches, in runtime-reported list order. -/
def serviceContainersOf (pre : List Char) (cs : List ContainerInfo)
    (serviceName : List Char) : List ContainerInfo :=
  cs.filter (fun c =>
    match parseContainerName pre c.name with
    | some info => info.serviceName == serviceName
    | none => false)

/-- The five labels written on every managed container plus the platform
label (`runtime.GOOS` is the `goos` parameter). -/
def buildLabels (pre goos : List Char) (s : Service) :
    List (List Char × List Char) :=
  [(pre ++ ".managed".toList, "true".toList),
   (pre ++ ".service".toList, s.name),
   (pre ++ ".image".toList, s.image),
   (pre ++ ".tag".toList, s.tag),
   (pre ++ ".public_port".toList, natChars s.publicPort),
   (pre ++ ".platform".toList, goos)]

/-- `CreateContainer` (+ the `StartContainer` every caller performs next):
re-allocates the docker port from the current container list, then creates a
container named by `generateContainerName` carrying the managed labels and
the port binding.  The Docker-assigned ID is opaque; the embedding uses the
(unique) container name as ID. -/
def createContainer (pre : List Char) (startPort : Nat) (occupied : Nat → Bool)
    (fuel : Nat) (goos : List Char) (cs : List ContainerInfo) (service : Service)
    (replicaIndex : Nat) : Option ContainerInfo :=
  match findAvailablePortForService pre startPort occupied fuel cs service.name with
  | none => none
  | some canUsePort =>
    let svc := { service with dockerPort := canUsePort }
    let cname := generateContainerName pre svc.name svc.publicPort svc.dockerPort
      replicaIndex
    some { id := cname, name := cname, image := svc.image ++ ':' :: svc.tag,
           status := [], state := "running".toList,
           ports := [{ hostPort := natChars svc.dockerPort,
                       containerPort := natChars svc.internalPort,
                       protocol := "tcp".toList }],
           labels := buildLabels pre goos svc, createdAt := [] }

/-- The `scaleUp` loop: each iteration recomputes the next replica index and
creates one replica from the extracted service config; the created container
joins the list seen by the following iteration (the source re-lists from the
runtime each time). -/
def scaleUpGo (pre : List Char) (startPort : Nat) (occupied : Nat → Bool)
    (fuel : Nat) (goos : List Char) (serviceConfig : Service) :
    Nat → List ContainerInfo → List ContainerInfo
  | 0, cs => cs
  | n + 1, cs =>
    let replicaIndex := getNextReplicaIndex pre cs serviceConfig.name
    match createContainer pre startPort occupied fuel goos cs
        { serviceConfig with replicas := 1 } replicaIndex with
    | none => scaleUpGo pre startPort occupied fuel goos serviceConfig n cs
    | some c => scaleUpGo pre startPort occupied fuel goos serviceConfig n (cs ++ [c])

inductive ScaleErr where
  | serviceNotFound
  | extractFailed
  deriving DecidableEq, Repr

inductive ScaleOutcome where
  | scaledUp (finalContainers : List ContainerInfo)
  | scaledDown (removed : List RemoveEvent)
  deriving DecidableEq, Repr

deriving instance DecidableEq for Except

/-- `ScaleService`: filter the service's containers; with none, fail with the
`service … not found` error whatever the target; otherwise extract the config
from the first container and scale up (`target > current`) or down. -/
def scaleService (pre : List Char) (startPort : Nat) (occupied : Nat → Bool)
    (fuel : Nat) (goos : List Char) (cs : List ContainerInfo)
    (serviceName : List Char) (targetReplicas : Nat) :
    Except ScaleErr ScaleOutcome :=
  let serviceContainers := serviceContainersOf pre cs serviceName
  match serviceContainers with
  | [] => .error .serviceNotFound
  | c0 :: _ =>
    match extractServiceFromContainer pre c0 with
    | none => .error .extractFailed
    | some serviceConfig =>
      if serviceContainers.length < targetReplicas then
        .ok (.scaledUp (scaleUpGo pre startPort occupied fuel goos serviceConfig
          (targetReplicas - serviceContainers.length) cs))
      else
        .ok (.scaledDown (scaleDown serviceContainers targetReplicas))

/-- C3 (amended): `ScaleService` fails with ServiceNotFound exactly when the
named service currently has zero containers, for EVERY target count — in
particular `Scale(name, 0)` on a non-existent service returns the
ServiceNotFound error rather than succeeding as a no-op. -/
theorem C3_scale_notFound_iff (pre : List Char) (startPort : Nat)
    (occupied : Nat → Bool) (fuel : Nat) (goos : List Char)
    (cs : List ContainerInfo) (serviceName : List Char) (targetReplicas : Nat) :
    scaleService pre startPort occupied fuel goos cs serviceName targetReplicas
        = .error .serviceNotFound
      ↔ serviceContainersOf pre cs serviceName = [] := by
  cases h : serviceContainersOf pre cs serviceName with
  | nil =>
      have hg : scaleService pre startPort occupied fuel goos cs serviceName
          targetReplicas = .error .serviceNotFound := by
        simp only [scaleService, h]
      simp [hg, h]
  | cons c0 rest =>
      refine iff_of_false ?_ (by simp [h])
      cases hx : extractServiceFromContainer pre c0 with
      | none => simp [scaleService, h, hx]
      | some cfg =>
          simp only [scaleService, h, hx]
          split <;> simp

/-- C3 counterexample: `Scale("web", 0)` with no containers for `web` returns
the ServiceNotFound error — the claim's promised success no-op does not
happen. -/
theorem C3_scale_zero_counterexample :
    scaleService odPre 30000 (fun _ => false) 2 "linux".toList []
        "web".toList 0 = .error .serviceNotFound := by
  decide

/-! ### Fixtures for scale-down and update -/

/-- The managed labels of service `web` at public port 9203. -/
def stdWebLabels : List (List Char × List Char) :=
  [(odPre ++ ".service".toList, "web".toList),
   (odPre ++ ".image".toList, "nginx".toList),
   (odPre ++ ".tag".toList, "alpine".toList),
   (odPre ++ ".public_port".toList, natChars 9203)]

/-- Labelled running replica 0 of `web` (docker port 30000). -/
def webL0 : ContainerInfo :=
  { id := "d0".toList, name := generateContainerName odPre "web".toList 9203 30000 0,
    image := "nginx:alpine".toList, status := [], state := "running".toList,
    ports := [], labels := stdWebLabels, createdAt := [] }

/-- Labelled running replica 1 of `web` (docker port 30001). -/
def webL1 : ContainerInfo :=
  { id := "d1".toList, name := generateContainerName odPre "web".toList 9203 30001 1,
    image := "nginx:alpine".toList, status := [], state := "running".toList,
    ports := [], labels := stdWebLabels, createdAt := [] }

/-- C5: scale-down removes the tail of the runtime-reported container list,
not the highest replica indices.  With the list ordered newest-first
(`[replica 1, replica 0]`, as the container runtime reports it) and target 1,
the source removes replica 0 — the LOWEST index — stopping it with 30s grace
and force-removing it, while the claim requires replica 1 to be removed. -/
theorem C5_scaleDown_removes_list_tail :
    scaleService odPre 30000 (fun _ => false) 2 "linux".toList [webL1, webL0]
        "web".toList 1
      = .ok (.scaledDown [{ containerId := "d0".toList, stopGraceSeconds := 30,
                            forceRemove := true }]) ∧
    (parseContainerName odPre webL0.name).map (·.replicaIndex) = some 0 ∧
    (parseContainerName odPre webL1.name).map (·.replicaIndex) = some 1 ∧
    webL0.id = "d0".toList := by
  refine ⟨by decide, by decide, by decide, by decide⟩

/-! ## Rolling update (`UpdateContainer`) -/

structure UpdateResult where
  newContainer : ContainerInfo
  newDockerPort : Nat
  oldContainerId : List Char
  deriving DecidableEq, Repr

/-- `UpdateContainer`: locate the old replica of `(serviceName, replicaIndex)`,
allocate a fresh docker port, then create and start a replacement built from
`newService` — including `newService.PublicPort` — and stop/remove the old
container.  (`CreateContainer` re-allocates the port on the unchanged list,
yielding the same value.) -/
def updateContainer (pre : List Char) (startPort : Nat) (occupied : Nat → Bool)
    (fuel : Nat) (goos : List Char) (cs : List ContainerInfo)
    (serviceName : List Char) (newService : Service) (replicaIndex : Nat) :
    Option UpdateResult :=
  match cs.find? (fun c =>
    match parseContainerName pre c.name with
    | some info => info.serviceName == serviceName
        && info.replicaIndex == replicaIndex
    | none => false) with
  | none => none
  | some oldContainer =>
    match findAvailablePortForService pre startPort occupied fuel cs serviceName with
    | none => none
    | some newDockerPort =>
      let updateService : Service :=
        { name := newService.name, image := newService.image, tag := newService.tag,
          publicPort := newService.publicPort, internalPort := newService.internalPort,
          dockerPort := newDockerPort, environment := newService.environment,
          envFile := newService.envFile, volumes := newService.volumes,
          entrypoint := newService.entrypoint, command := newService.command,
          workingDir := newService.workingDir, replicas := 1 }
      match createContainer pre startPort occupied fuel goos cs updateService
          replicaIndex with
      | none => none
      | some newC =>
          some { newContainer := newC, newDockerPort := newDockerPort,
                 oldContainerId := oldContainer.id }

/-- An update request for `web` that carries public port 9999 (the service
runs on 9203).  `UpdateService` copies the request's `PublicPort` into the
spec handed to `UpdateContainer`. -/
def reqService9999 : Service :=
  { name := "web".toList, image := "nginx".toList, tag := "2".toList,
    publicPort := 9999, internalPort := 80, dockerPort := 0, replicas := 1,
    environment := [], envFile := [], volumes := [], entrypoint := [],
    command := [], workingDir := [] }

/-- C2: evaluating `UpdateContainer` at the failing input.  The old replica of
`web` encodes public port 9203; the update request carries 9999; the
replacement container is created with name `onedock-web-p9999-c30001-0` and
label `public_port = 9999` — the public port embedded in the replica changes
during the update, contradicting the claim (and the source's own comment
that the public port is kept unchanged). -/
theorem C2_update_changes_publicPort :
    (updateContainer odPre 30000 (fun _ => false) 2 "linux".toList [webL0]
        "web".toList reqService9999 0).map
      (fun r => ((parseContainerName odPre r.newContainer.name).map (·.publicPort),
                 labelGet r.newContainer.labels (odPre ++ ".public_port".toList)))
      = some (some 9999, natChars 9999) ∧
    (parseContainerName odPre webL0.name).map (·.publicPort) = some 9203 ∧
    (9999 : Nat) ≠ 9203 := by
  refine ⟨by decide, by decide, by decide⟩

/-! ## MappingCache (`GetContainerMapping` / `rebuildContainerMappingFromDocker`) -/

/-- One cache record: `{publicPort, dockerPort, containerID, serviceName}`. -/
structure ContainerMapping where
  publicPort : Nat
  containerPort : Nat
  containerID : List Char
  serviceName : List Char
  deriving DecidableEq, Repr

/-- The TTL cache, embedded as an association list from key to value; `Set`
prepends (shadowing = overwrite), `Get` is `alookup`.  TTL expiry is outside
the pure embedding (an expired entry behaves like an absent one). -/
abbrev Cache : Type := List (List Char × List ContainerMapping)

/-- Cache key `container_mapping:<publicPort>`. -/
def mappingKey (publicPort : Nat) : List Char :=
  "container_mapping:".toList ++ natChars publicPort

/-- `rebuildContainerMappingFromDocker`: keep running containers whose parsed
name carries the requested public port. -/
def rebuildContainerMappingFromDocker (pre : List Char) (cs : List ContainerInfo)
    (publicPort : Nat) : List ContainerMapping :=
  cs.filterMap (fun c =>
    if c.state ≠ "running".toList then none
    else match parseContainerName pre c.name with
      | none => none
      | some info =>
          if info.publicPort ≠ publicPort then none
          else some { publicPort := publicPort, containerPort := info.containerPort,
                      containerID := c.id, serviceName := info.serviceName })

/-- `GetContainerMapping`: serve a non-empty cached list; otherwise rebuild
from the runtime and cache the result only when it is non-empty. -/
def getContainerMapping (pre : List Char) (cs : List ContainerInfo)
    (cache : Cache) (publicPort : Nat) : List ContainerMapping × Cache :=
  let key := mappingKey publicPort
  match alookup key cache with
  | some cached =>
      if cached ≠ [] then (cached, cache)
      else
        let mappings := rebuildContainerMappingFromDocker pre cs publicPort
        if mappings ≠ [] then (mappings, (key, mappings) :: cache)
        else (mappings, cache)
  | none =>
      let mappings := rebuildContainerMappingFromDocker pre cs publicPort
      if mappings ≠ [] then (mappings, (key, mappings) :: cache)
      else (mappings, cache)

/-- C9: the mapping cache never stores an empty mapping list.  Under the
invariant that all cached values are non-empty, `GetContainerMapping`
(1) preserves the invariant, (2) modifies the cache only when the rebuild
yields at least one mapping, and (3) on a port with no cache entry and no
matching running container it returns the empty list and leaves the cache
unchanged — no negative caching, so the next get rebuilds again. -/
theorem C9_cache_never_stores_empty (pre : List Char) (cs : List ContainerInfo)
    (cache : Cache) (publicPort : Nat)
    (hinv : ∀ kv ∈ cache, kv.2 ≠ []) :
    (∀ kv ∈ (getContainerMapping pre cs cache publicPort).2, kv.2 ≠ []) ∧
    ((getContainerMapping pre cs cache publicPort).2 ≠ cache →
      rebuildContainerMappingFromDocker pre cs publicPort ≠ []) ∧
    (alookup (mappingKey publicPort) cache = none →
      rebuildContainerMappingFromDocker pre cs publicPort = [] →
      (getContainerMapping pre cs cache publicPort).1 = [] ∧
      (getContainerMapping pre cs cache publicPort).2 = cache) := by
  cases hl : alookup (mappingKey publicPort) cache with
  | some cached =>
      by_cases hc : cached ≠ []
      · have hg : getContainerMapping pre cs cache publicPort = (cached, cache) := by
          simp only [getContainerMapping, hl, if_pos hc]
        rw [hg]
        exact ⟨hinv, fun h => absurd rfl h, fun hnone => Option.noConfusion hnone⟩
      · by_cases hm : rebuildContainerMappingFromDocker pre cs publicPort ≠ []
        · have hg : getContainerMapping pre cs cache publicPort
              = (rebuildContainerMappingFromDocker pre cs publicPort,
                 (mappingKey publicPort,
                  rebuildContainerMappingFromDocker pre cs publicPort) :: cache) := by
            simp only [getContainerMapping, hl, if_neg hc, if_pos hm]
          rw [hg]
          refine ⟨?_, fun _ => hm, fun hnone => Option.noConfusion hnone⟩
          intro kv hkv
          rcases List.mem_cons.mp hkv with rfl | hkv
          · exact hm
          · exact hinv kv hkv
        · have hg : getContainerMapping pre cs cache publicPort
              = (rebuildContainerMappingFromDocker pre cs publicPort, cache) := by
            simp only [getContainerMapping, hl, if_neg hc, if_neg hm]
          rw [hg]
          exact ⟨hinv, fun h => absurd rfl h, fun _ hreb => ⟨hreb, rfl⟩⟩
  | none =>
      by_cases hm : rebuildContainerMappingFromDocker pre cs publicPort ≠ []
      · have hg : getContainerMapping pre cs cache publicPort
            = (rebuildContainerMappingFromDocker pre cs publicPort,
               (mappingKey publicPort,
                rebuildContainerMappingFromDocker pre cs publicPort) :: cache) := by
          simp only [getContainerMapping, hl, if_pos hm]
        rw [hg]
        refine ⟨?_, fun _ => hm, fun _ hreb => absurd hreb hm⟩
        intro kv hkv
        rcases List.mem_cons.mp hkv with rfl | hkv
        · exact hm
        · exact hinv kv hkv
      · have hg : getContainerMapping pre cs cache publicPort
            = (rebuildContainerMappingFromDocker pre cs publicPort, cache) := by
          simp only [getContainerMapping, hl, if_neg hm]
        rw [hg]
        exact ⟨hinv, fun h => absurd rfl h, fun _ hreb => ⟨hreb, rfl⟩⟩

/-- C9 witness: empty cache, one running replica on 9203 and a get on port
7777 (no matching container): the result is empty, the cache stays empty inv
intact, and nothing was written. -/
theorem C9_cache_never_stores_empty_witness :
    (∀ kv ∈ ([] : Cache), kv.2 ≠ ([] : List ContainerMapping)) ∧
    ((∀ kv ∈ (getContainerMapping odPre [webC0] [] 7777).2, kv.2 ≠ []) ∧
    ((getContainerMapping odPre [webC0] [] 7777).2 ≠ [] →
      rebuildContainerMappingFromDocker odPre [webC0] 7777 ≠ []) ∧
    (alookup (mappingKey 7777) ([] : Cache) = none →
      rebuildContainerMappingFromDocker odPre [webC0] 7777 = [] →
      (getContainerMapping odPre [webC0] [] 7777).1 = [] ∧
      (getContainerMapping odPre [webC0] [] 7777).2 = [])) :=
  ⟨fun kv hkv => absurd hkv (List.not_mem_nil kv),
   C9_cache_never_stores_empty odPre [webC0] [] 7777
     (fun kv hkv => absurd hkv (List.not_mem_nil kv))⟩

/-! ## LoadBalancer (`SelectBackend`) and PortProxy fleet

The per-request reverse proxying, timeouts and the listening socket are
network I/O; the embedding models the selection state machine
(`strategy`, `backends`, the atomic round-robin counter) and the fleet map.
The `rand.Intn` draw of the weighted strategy is an oracle `rand` with
`rand n` intended to lie below `n`; `lastUsed` timestamps are not modelled
(no selection path reads them). -/

/-- One reverse-proxy target (`Backend`): its container mapping, liveness
flag, connection counter and weight. -/
structure Backend where
  mapping : ContainerMapping
  active : Bool
  connections : Nat
  weight : Nat
  deriving DecidableEq, Repr

/-- `LoadBalancer`: the strategy string from configuration, the backend
snapshot, and the atomic round-robin cursor. -/
structure LoadBalancer where
  strategy : List Char
  backends : List Backend
  current : Nat
  deriving DecidableEq, Repr

/-- `selectRoundRobin`: atomically increment the cursor and index the active
list with `(current-1) mod len`. -/
def selectRoundRobin (lb : LoadBalancer) (backends : List Backend) :
    Option Backend × LoadBalancer :=
  if h : backends = [] then (none, lb)
  else
    let current := lb.current + 1
    (some (backends.get ⟨(current - 1) % backends.length,
        Nat.mod_lt _ (List.length_pos.mpr h)⟩),
     { lb with current := current })

/-- The scan loop of `selectLeastConnections`: keep the first backend with
strictly fewer connections than the best so far. -/
def lcGo : Backend → List Backend → Backend
  | sel, [] => sel
  | sel, b :: rest =>
      if b.connections < sel.connections then lcGo b rest else lcGo sel rest

/-- `selectLeastConnections`: minimum-`connections` backend, first found on a
tie. -/
def selectLeastConnections (backends : List Backend) : Option Backend :=
  match backends with
  | [] => none
  | b0 :: rest => some (lcGo b0 rest)

/-- The cumulative-weight scan of `selectWeighted`. -/
def weightedGo (target : Nat) : Nat → List Backend → Option Backend
  | _, [] => none
  | current, b :: rest =>
      if target < current + b.weight then some b
      else weightedGo target (current + b.weight) rest

/-- `selectWeighted`: random point over the cumulative weight; total weight 0
degrades to round-robin; fall back to the first backend if the scan misses. -/
def selectWeighted (rand : Nat → Nat) (lb : LoadBalancer)
    (backends : List Backend) : Option Backend × LoadBalancer :=
  match backends with
  | [] => (none, lb)
  | b0 :: rest =>
      let totalWeight := ((b0 :: rest).map (·.weight)).sum
      if totalWeight = 0 then selectRoundRobin lb (b0 :: rest)
      else
        (some ((weightedGo (rand totalWeight) 0 (b0 :: rest)).getD b0), lb)

/-- `SelectBackend`: filter the active backends; none → `nil`; otherwise
dispatch on the strategy string, any unknown strategy falling back to
round-robin (the `switch` default). -/
def selectBackend (rand : Nat → Nat) (lb : LoadBalancer) :
    Option Backend × LoadBalancer :=
  let activeBackends := lb.backends.filter (·.active)
  if activeBackends = [] then (none, lb)
  else if lb.strategy = "round_robin".toList then
    selectRoundRobin lb activeBackends
  else if lb.strategy = "least_connections".toList then
    (selectLeastConnections activeBackends, lb)
  else if lb.strategy = "weighted".toList then
    selectWeighted rand lb activeBackends
  else selectRoundRobin lb activeBackends

/-- `M` consecutive `SelectBackend` calls, threading the balancer state. -/
def runSelections (rand : Nat → Nat) : Nat → LoadBalancer →
    List (Option Backend) × LoadBalancer
  | 0, lb => ([], lb)
  | m + 1, lb =>
      let r1 := selectBackend rand lb
      let r2 := runSelections rand m r1.2
      (r1.1 :: r2.1, r2.2)

/-! ### Round-robin fairness arithmetic -/

theorem mod_hit_iff {N a t j : Nat} (hN : 0 < N) (ha : a < N) (ht : t < N)
    (hj : j < N) :
    (a + t) % N = j ↔ t = if a ≤ j then j - a else N + j - a := by
  by_cases h : a + t < N
  · rw [Nat.mod_eq_of_lt h]
    split <;> omega
  · rw [Nat.mod_eq_sub_mod (by omega), Nat.mod_eq_of_lt (by omega)]
    split <;> omega

/-- Over any window of `N` consecutive counter values, each residue is hit
exactly once. -/
theorem countP_range_cycle (c N j : Nat) (hN : 0 < N) (hj : j < N) :
    (List.range N).countP (fun t => (c + t) % N == j) = 1 := by
  have haN : c % N < N := Nat.mod_lt _ hN
  set r := if c % N ≤ j then j - c % N else N + j - c % N with hrdef
  have hrN : r < N := by rw [hrdef]; split <;> omega
  have hcong : ∀ t ∈ List.range N,
      ((c + t) % N == j) = true ↔ (t == r) = true := by
    intro t htm
    have ht : t < N := List.mem_range.mp htm
    have hmod : (c + t) % N = (c % N + t) % N := by
      conv_lhs => rw [Nat.add_mod]
      rw [Nat.mod_eq_of_lt ht]
    rw [hmod]
    have hiff := mod_hit_iff hN haN ht hj
    constructor
    · intro hb
      have h1 : t = if c % N ≤ j then j - c % N else N + j - c % N :=
        hiff.mp (by simpa using hb)
      rw [← hrdef] at h1
      simpa using h1
    · intro hb
      have htr : t = r := by simpa using hb
      have h2 : (c % N + t) % N = j := hiff.mpr (by rw [htr, hrdef])
      simpa using h2
  rw [List.countP_congr hcong, ← List.count_eq_countP]
  have h1 : 0 < List.count r (List.range N) :=
    List.count_pos_iff_mem.mpr (List.mem_range.mpr hrN)
  have h2 : List.count r (List.range N) ≤ 1 :=
    List.nodup_iff_count_le_one.mp (List.nodup_range N) r
  omega

theorem countP_range_add (p : Nat → Bool) (a b : Nat) :
    (List.range (a + b)).countP p
      = (List.range a).countP p + (List.range b).countP (fun t => p (a + t)) := by
  induction b with
  | zero => simp
  | succ n ih =>
      rw [show a + (n + 1) = (a + n) + 1 from rfl, List.range_succ,
        List.countP_append, ih, List.range_succ, List.countP_append]
      by_cases hp : p (a + n) = true
      · simp [List.countP_cons, hp]
        omega
      · simp [List.countP_cons, hp]

theorem countP_range_mul (c N j : Nat) (hN : 0 < N) (hj : j < N) :
    ∀ q, (List.range (q * N)).countP (fun t => (c + t) % N == j) = q := by
  intro q
  induction q with
  | zero => simp
  | succ n ih =>
      rw [show (n + 1) * N = n * N + N by ring, countP_range_add, ih]
      have hcong : ∀ t ∈ List.range N,
          ((c + (n * N + t)) % N == j) = true ↔ ((c + t) % N == j) = true := by
        intro t _
        rw [show c + (n * N + t) = (c + t) + n * N by ring,
          Nat.add_mul_mod_self_right]
      rw [List.countP_congr hcong, countP_range_cycle c N j hN hj]

/-- Hit count over `M` consecutive counter values: `⌊M/N⌋` or `⌈M/N⌉`. -/
theorem countP_range_floor_ceil (c N j M : Nat) (hN : 0 < N) (hj : j < N) :
    (List.range M).countP (fun t => (c + t) % N == j) = M / N ∨
    (List.range M).countP (fun t => (c + t) % N == j) = (M + N - 1) / N := by
  obtain ⟨q, s, hsN, rfl⟩ : ∃ q s, s < N ∧ M = q * N + s :=
    ⟨M / N, M % N, Nat.mod_lt _ hN, by
      rw [Nat.mul_comm]; exact (Nat.div_add_mod M N).symm⟩
  rw [countP_range_add, countP_range_mul c N j hN hj]
  have hcong : ∀ t ∈ List.range s,
      ((c + (q * N + t)) % N == j) = true ↔ ((c + t) % N == j) = true := by
    intro t _
    rw [show c + (q * N + t) = (c + t) + q * N by ring,
      Nat.add_mul_mod_self_right]
  rw [List.countP_congr hcong]
  have he1 : (List.range s).countP (fun t => (c + t) % N == j) ≤ s := by
    calc (List.range s).countP (fun t => (c + t) % N == j)
        ≤ (List.range s).length := List.countP_le_length _
      _ = s := List.length_range s
  have he2 : (List.range s).countP (fun t => (c + t) % N == j) ≤ 1 := by
    calc (List.range s).countP (fun t => (c + t) % N == j)
        ≤ (List.range N).countP (fun t => (c + t) % N == j) :=
          List.Sublist.countP_le _ (List.range_sublist.mpr (Nat.le_of_lt hsN))
      _ = 1 := countP_range_cycle c N j hN hj
  have hdiv1 : (q * N + s) / N = q := by
    rw [show q * N + s = s + q * N by omega, Nat.add_mul_div_right _ _ hN,
      Nat.div_eq_of_lt hsN]
    omega
  rcases Nat.le_one_iff_eq_zero_or_eq_one.mp he2 with h0 | h1
  · left
    rw [hdiv1, h0]
    omega
  · right
    have hs0 : 0 < s := by omega
    obtain ⟨t, rfl⟩ : ∃ t, s = t + 1 := ⟨s - 1, by omega⟩
    rw [show q * N + (t + 1) + N - 1 = t + (q + 1) * N by
      have : (q + 1) * N = q * N + N := by ring
      omega]
    rw [Nat.add_mul_div_right _ _ hN, Nat.div_eq_of_lt (by omega), h1]
    omega

/-! ### Round-robin behaviour of `SelectBackend` -/

theorem selectBackend_rr (rand : Nat → Nat) (lb : LoadBalancer)
    (hstrat : lb.strategy = "round_robin".toList)
    (hact : lb.backends.filter (·.active) ≠ []) :
    selectBackend rand lb
      = ((lb.backends.filter (·.active))[lb.current %
            (lb.backends.filter (·.active)).length]?,
         { lb with current := lb.current + 1 }) := by
  have hlen : 0 < (lb.backends.filter (·.active)).length :=
    List.length_pos.mpr hact
  rw [List.getElem?_eq_getElem (Nat.mod_lt _ hlen)]
  simp [selectBackend, selectRoundRobin, hstrat, hact, Nat.add_sub_cancel]

theorem runSelections_rr (rand : Nat → Nat) :
    ∀ (M : Nat) (lb : LoadBalancer),
      lb.strategy = "round_robin".toList →
      lb.backends.filter (·.active) ≠ [] →
      (runSelections rand M lb).1
        = (List.range M).map (fun t =>
            (lb.backends.filter (·.active))[(lb.current + t) %
              (lb.backends.filter (·.active)).length]?) := by
  intro M
  induction M with
  | zero => intro lb _ _; simp [runSelections]
  | succ m ih =>
      intro lb hstrat hact
      have hstep := selectBackend_rr rand lb hstrat hact
      simp only [runSelections]
      rw [hstep]
      have ihx := ih { lb with current := lb.current + 1 } hstrat hact
      simp only at ihx ⊢
      rw [ihx, List.range_succ_eq_map, List.map_cons, List.map_map]
      congr 1
      apply List.map_congr_left
      intro t _
      simp only [Function.comp_apply]
      rw [show lb.current + 1 + t = lb.current + (t + 1) by omega]

/-- C7: round-robin fairness.  For a balancer in round_robin mode with a
fixed non-empty duplicate-free active backend list of length `N`, any `M`
consecutive `SelectBackend` calls pick each active backend either `⌊M/N⌋` or
`⌈M/N⌉` times. -/
theorem C7_roundRobin_fairness (rand : Nat → Nat) (lb : LoadBalancer)
    (M j : Nat)
    (hstrat : lb.strategy = "round_robin".toList)
    (hnodup : (lb.backends.filter (·.active)).Nodup)
    (hj : j < (lb.backends.filter (·.active)).length) :
    (runSelections rand M lb).1.count
        (some ((lb.backends.filter (·.active)).get ⟨j, hj⟩))
      = M / (lb.backends.filter (·.active)).length ∨
    (runSelections rand M lb).1.count
        (some ((lb.backends.filter (·.active)).get ⟨j, hj⟩))
      = (M + (lb.backends.filter (·.active)).length - 1)
        / (lb.backends.filter (·.active)).length := by
  have hact : lb.backends.filter (·.active) ≠ [] := by
    intro h
    rw [h] at hj
    simp at hj
  have hN : 0 < (lb.backends.filter (·.active)).length := List.length_pos.mpr hact
  rw [runSelections_rr rand M lb hstrat hact, List.count_eq_countP,
    List.countP_map]
  have hcong : ∀ t ∈ List.range M,
      (((fun x => x == some ((lb.backends.filter (·.active)).get ⟨j, hj⟩)) ∘
        fun t => (lb.backends.filter (·.active))[(lb.current + t) %
          (lb.backends.filter (·.active)).length]?) t) = true
        ↔ ((lb.current + t) % (lb.backends.filter (·.active)).length == j)
            = true := by
    intro t _
    have hi : (lb.current + t) % (lb.backends.filter (·.active)).length
        < (lb.backends.filter (·.active)).length := Nat.mod_lt _ hN
    simp only [Function.comp_apply]
    rw [List.getElem?_eq_getElem hi]
    constructor
    · intro hb
      have h1 : (lb.backends.filter (·.active))[(lb.current + t) %
          (lb.backends.filter (·.active)).length]
          = (lb.backends.filter (·.active))[j] := by
        simpa [List.get_eq_getElem] using hb
      have h2 := (hnodup.getElem_inj_iff).mp h1
      simpa using h2
    · intro hb
      have h1 : (lb.current + t) % (lb.backends.filter (·.active)).length = j := by
        simpa using hb
      simp [h1, List.get_eq_getElem]
  rw [List.countP_congr hcong]
  exact countP_range_floor_ceil lb.current (lb.backends.filter (·.active)).length
    j M hN hj

/-! ## ProxyFleet (`StartPortProxy` / `createPortProxy` / `createLoadBalancer`) -/

/-- `createBackend`: active, zero connections, default weight 100 (the
reverse-proxy handle and error handler are network objects, not modelled). -/
def createBackend (m : ContainerMapping) : Backend :=
  { mapping := m, active := true, connections := 0, weight := 100 }

/-- `createLoadBalancer`: empty configured strategy degrades to round_robin;
one backend per mapping; fails when no backend could be built. -/
def createLoadBalancer (strategyConf : List Char)
    (mappings : List ContainerMapping) : Option LoadBalancer :=
  let strategy := if strategyConf = [] then "round_robin".toList else strategyConf
  let backends := mappings.map createBackend
  if backends = [] then none
  else some { strategy := strategy, backends := backends, current := 0 }

/-- One per-public-port proxy: `single` mode holds the one target mapping,
`load_balancer` mode holds the balancer. -/
structure PortProxy where
  publicPort : Nat
  proxyType : List Char
  singleTarget : Option ContainerMapping
  balancer : Option LoadBalancer
  deriving DecidableEq, Repr

/-- `createPortProxy`: resolve the backends through the mapping cache; zero
mappings fail; one mapping gives a `single` proxy; more give a balancer. -/
def createPortProxy (strategyConf pre : List Char) (cs : List ContainerInfo)
    (cache : Cache) (publicPort : Nat) : Option PortProxy × Cache :=
  let mappings := (getContainerMapping pre cs cache publicPort).1
  let cache2 := (getContainerMapping pre cs cache publicPort).2
  if mappings = [] then (none, cache2)
    else if mappings.length = 1 then
      (some { publicPort := publicPort, proxyType := "single".toList,
              singleTarget := mappings.head?, balancer := none }, cache2)
    else
      match createLoadBalancer strategyConf mappings with
      | none => (none, cache2)
      | some balancer =>
          (some { publicPort := publicPort,
                  proxyType := "load_balancer".toList,
                  singleTarget := none, balancer := some balancer }, cache2)

/-- Association-list lookup with `Nat` keys (the fleet map). -/
def nlookup {α : Type} (k : Nat) : List (Nat × α) → Option α
  | [] => none
  | (k2, v) :: rest => if k = k2 then some v else nlookup k rest

/-- `StartPortProxy`: under the fleet lock, an existing entry is a successful
no-op; otherwise create a proxy (start always returns nil) and store it. -/
def startPortProxy (strategyConf pre : List Char) (cs : List ContainerInfo)
    (fleet : List (Nat × PortProxy)) (cache : Cache) (publicPort : Nat) :
    Bool × List (Nat × PortProxy) × Cache :=
  match nlookup publicPort fleet with
  | some _ => (true, fleet, cache)
  | none =>
    match createPortProxy strategyConf pre cs cache publicPort with
    | (none, cache2) => (false, fleet, cache2)
    | (some proxy, cache2) => (true, (publicPort, proxy) :: fleet, cache2)

theorem nlookup_none_filter {α : Type} (k : Nat) (l : List (Nat × α))
    (h : nlookup k l = none) : l.filter (fun e => e.1 == k) = [] := by
  induction l with
  | nil => rfl
  | cons kv rest ih =>
      obtain ⟨k2, v⟩ := kv
      simp only [nlookup] at h
      split at h
      · exact absurd h (by simp)
      · next hne =>
          have hb : (k2 == k) = false :=
            beq_eq_false_iff_ne.mpr (fun hh => hne hh.symm)
          simp [List.filter_cons, hb, ih h]

/-- C8 (amended): when the port has no proxy yet and the mapping cache
resolves at least one backend, `Start(p); Start(p)` succeeds twice, the
second call changes neither the fleet nor the cache, and exactly one
PortProxy is bound to `p`.  (When the resolution is empty, both calls fail
and no proxy is bound — see the counterexample.) -/
theorem C8_start_idempotent (strategyConf pre : List Char)
    (cs : List ContainerInfo) (fleet : List (Nat × PortProxy)) (cache : Cache)
    (publicPort : Nat)
    (hnew : nlookup publicPort fleet = none)
    (hmap : (getContainerMapping pre cs cache publicPort).1 ≠ []) :
    let r1 := startPortProxy strategyConf pre cs fleet cache publicPort
    let r2 := startPortProxy strategyConf pre cs r1.2.1 r1.2.2 publicPort
    r1.1 = true ∧ r2.1 = true ∧ r2.2.1 = r1.2.1 ∧ r2.2.2 = r1.2.2 ∧
      (r2.2.1.filter (fun e => e.1 == publicPort)).length = 1 := by
  rcases hmr : getContainerMapping pre cs cache publicPort with ⟨mappings, cache2⟩
  rw [hmr] at hmap
  have hmap2 : mappings ≠ [] := hmap
  have hcreate : ∃ proxy,
      createPortProxy strategyConf pre cs cache publicPort
        = (some proxy, cache2) := by
    unfold createPortProxy
    simp only [hmr]
    rw [if_neg hmap2]
    by_cases hlen : mappings.length = 1
    · rw [if_pos hlen]
      exact ⟨_, rfl⟩
    · rw [if_neg hlen]
      have hlb : createLoadBalancer strategyConf mappings
          = some { strategy := if strategyConf = [] then "round_robin".toList
                     else strategyConf,
                   backends := mappings.map createBackend, current := 0 } := by
        unfold createLoadBalancer
        rw [if_neg (by simpa [List.map_eq_nil_iff] using hmap2)]
      rw [hlb]
      exact ⟨_, rfl⟩
  obtain ⟨proxy, hpx⟩ := hcreate
  have hr1 : startPortProxy strategyConf pre cs fleet cache publicPort
      = (true, (publicPort, proxy) :: fleet, cache2) := by
    unfold startPortProxy
    rw [hnew, hpx]
  have hr2 : startPortProxy strategyConf pre cs ((publicPort, proxy) :: fleet)
      cache2 publicPort = (true, (publicPort, proxy) :: fleet, cache2) := by
    unfold startPortProxy
    have hlk : nlookup publicPort ((publicPort, proxy) :: fleet) = some proxy := by
      simp [nlookup]
    rw [hlk]
  simp only [hr1, hr2, List.filter_cons, nlookup_none_filter _ _ hnew]
  simp

/-- C8 counterexample: with no containers backing port 9203, both `Start`
calls fail and ZERO proxies are bound to 9203 — not the "exactly one" the
claim states, and the second call is a failed retry rather than a
present-entry no-op. -/
theorem C8_start_twice_counterexample :
    (let r1 := startPortProxy [] odPre [] [] [] 9203
     let r2 := startPortProxy [] odPre [] r1.2.1 r1.2.2 9203
     r1.1 = false ∧ r2.1 = false ∧
       (r2.2.1.filter (fun e => e.1 == 9203)).length = 0 ∧
       (r2.2.1.filter (fun e => e.1 == 9203)).length ≠ 1) := by
  decide

/-- C8 witness: two running replicas back 9203; a fresh fleet starts once,
the second start is a no-op, and exactly one proxy is bound. -/
theorem C8_start_idempotent_witness :
    (nlookup 9203 ([] : List (Nat × PortProxy)) = none ∧
      (getContainerMapping odPre [webC0, webC1] [] 9203).1 ≠ []) ∧
    (let r1 := startPortProxy [] odPre [webC0, webC1] [] [] 9203
     let r2 := startPortProxy [] odPre [webC0, webC1] r1.2.1 r1.2.2 9203
     r1.1 = true ∧ r2.1 = true ∧ r2.2.1 = r1.2.1 ∧ r2.2.2 = r1.2.2 ∧
       (r2.2.1.filter (fun e => e.1 == 9203)).length = 1) :=
  ⟨⟨by decide, by decide⟩,
   C8_start_idempotent [] odPre [webC0, webC1] [] [] 9203 (by decide) (by decide)⟩

/-! ### C7 witness fixture -/

/-- Two distinct backends for the round-robin witness. -/
def rrLB : LoadBalancer :=
  { strategy := "round_robin".toList,
    backends :=
      [createBackend { publicPort := 9203, containerPort := 30000,
                       containerID := "a0".toList, serviceName := "web".toList },
       createBackend { publicPort := 9203, containerPort := 30001,
                       containerID := "a1".toList, serviceName := "web".toList }],
    current := 0 }

/-- C7 witness: three consecutive selections over two active backends pick
backend 0 either ⌊3/2⌋ or ⌈3/2⌉ times. -/
theorem C7_roundRobin_fairness_witness :
    (rrLB.strategy = "round_robin".toList ∧
      (rrLB.backends.filter (·.active)).Nodup ∧
      0 < (rrLB.backends.filter (·.active)).length) ∧
    ((runSelections (fun _ => 0) 3 rrLB).1.count
        (some ((rrLB.backends.filter (·.active)).get ⟨0, by decide⟩))
      = 3 / (rrLB.backends.filter (·.active)).length ∨
     (runSelections (fun _ => 0) 3 rrLB).1.count
        (some ((rrLB.backends.filter (·.active)).get ⟨0, by decide⟩))
      = (3 + (rrLB.backends.filter (·.active)).length - 1)
        / (rrLB.backends.filter (·.active)).length) :=
  ⟨⟨by decide, by decide, by decide⟩,
   C7_roundRobin_fairness (fun _ => 0) rrLB 3 0 (by decide) (by decide)
     (by decide)⟩

end OneDock
